import Mathlib

/-!
Verification of the GTFS feed parser (arielcostas/gtfs-feed-parser).

This file shallowly embeds the Python source under `src/` and proves or
refutes the frozen claims about it.  Conventions of the embedding:

* Python strings are Lean `String`s; Python `int` is Lean `Int` (`Nat` where
  the source value is provably non-negative).
* CSV files are modelled at the row level: a file is `Option (List Row)` where
  `none` is a missing file (`FileNotFoundError` branch) and each `Row` is a
  structure holding the relevant columns as raw strings.  The header-index
  bookkeeping and the skipping of short rows in the Python loaders are CSV
  parsing mechanics (out of scope per the spec) and are not re-modelled: the
  row lists stand for the well-formed data rows the loops actually process.
* Code that can raise is embedded with `Option`/`Except`; `none`/`.error`
  marks the raising path.
* `float` fields never inspected by the embedded logic are modelled as
  `Option ℚ` so that record equality stays decidable.
-/

namespace GTFS

/-! ## Python `int()` (used by `map(int, parts)` in src/src/utils.py) -/

/-- Whitespace stripped by Python's `int(str)` (ASCII subset; the full set
also strips some Unicode spaces, which no claim exercises). -/
def isPySpace (c : Char) : Bool :=
  c = ' ' || c = '\t' || c = '\n' || c = '\r' || c = '\x0b' || c = '\x0c'

/-- Numeric value of an ASCII digit character. -/
def digitVal (c : Char) : Nat := c.toNat - 48

/-- Digit body of a Python integer literal: ASCII digits, with single
underscores permitted between two digits (accepted by `int()` since
Python 3.6). `acc` is the value of the digits read so far. -/
def pyDigitBody : List Char → Nat → Option Nat
  | [], acc => some acc
  | c :: rest, acc =>
    if c.isDigit then pyDigitBody rest (acc * 10 + digitVal c)
    else if c = '_' then
      match rest with
      | r :: rest2 =>
        if r.isDigit then pyDigitBody rest2 (acc * 10 + digitVal r) else none
      | [] => none
    else none

/-- Strip leading and trailing whitespace, as `int(str)` does. -/
def pyStrip (cs : List Char) : List Char :=
  ((cs.dropWhile isPySpace).reverse.dropWhile isPySpace).reverse

/-- Parse a whitespace-stripped character list as a Python integer literal:
optional single sign followed by a digit body. -/
def pyIntCore : List Char → Option Int
  | [] => none
  | c :: rest =>
    if c = '-' then
      match rest with
      | r :: rest2 =>
        if r.isDigit then (pyDigitBody rest2 (digitVal r)).map (fun n => -(n : Int))
        else none
      | [] => none
    else if c = '+' then
      match rest with
      | r :: rest2 =>
        if r.isDigit then (pyDigitBody rest2 (digitVal r)).map (fun n => (n : Int))
        else none
      | [] => none
    else if c.isDigit then (pyDigitBody rest (digitVal c)).map (fun n => (n : Int))
    else none

/-- Python's `int(str)`: `some` the parsed value, `none` where `int()` raises
`ValueError`. -/
def pyInt (s : String) : Option Int := pyIntCore (pyStrip s.data)

/-- Value of an all-digit string read in base 10. -/
def natOfDigits (s : String) : Nat :=
  s.data.foldl (fun a c => a * 10 + digitVal c) 0

/-- `s` is a non-empty string of ASCII digits. -/
def isDigits (s : String) : Bool := !s.data.isEmpty && s.data.all (·.isDigit)

/-! ## Python `str.split(sep)` for a single-character separator -/

/-- Helper for `pySplit`: `cur` is the current field, reversed. -/
def splitCharAux (sep : Char) : List Char → List Char → List (List Char)
  | [], cur => [cur.reverse]
  | c :: rest, cur =>
    if c = sep then cur.reverse :: splitCharAux sep rest []
    else splitCharAux sep rest (c :: cur)

/-- Python's `s.split(sep)` for a one-character separator: e.g.
`"a:b".split(":") == ["a","b"]`, `"".split(":") == [""]`,
`"::".split(":") == ["","",""]`. -/
def pySplit (sep : Char) (s : String) : List String :=
  (splitCharAux sep s.data []).map String.mk

/-! ## src/src/utils.py -/

/-- src/src/utils.py lines 32-45, `time_to_seconds`: convert `HH:MM:SS` to
seconds since midnight; empty input, a wrong number of `:`-separated fields,
or a field `int()` rejects all yield `0`. -/
def time_to_seconds (time_str : String) : Int :=
  if time_str = "" then 0
  else
    match pySplit ':' time_str with
    | [h, m, s] =>
      match pyInt h, pyInt m, pyInt s with
      | some hours, some minutes, some seconds =>
        hours * 3600 + minutes * 60 + seconds
      | _, _, _ => 0
    | _ => 0

/-- Python's `f"{i:02d}"`: zero-pad to a minimum width of 2, the sign
counting towards the width. -/
def pyFormat02 (i : Int) : String :=
  let s := toString i
  if s.length < 2 then "0" ++ s else s

/-- src/src/utils.py lines 48-77, `normalize_gtfs_time`: if the hour
component is at least 24, subtract 24 and re-render all three fields with
`f"{x:02d}"`, reporting `true`; otherwise (including empty or unparseable
input) return the input unchanged with `false`. -/
def normalize_gtfs_time (time_str : String) : String × Bool :=
  if time_str = "" then (time_str, false)
  else
    match pySplit ':' time_str with
    | [h, m, s] =>
      match pyInt h, pyInt m, pyInt s with
      | some hours, some minutes, some seconds =>
        if 24 ≤ hours then
          (pyFormat02 (hours - 24) ++ ":" ++ pyFormat02 minutes ++ ":" ++
            pyFormat02 seconds, true)
        else (time_str, false)
      | _, _, _ => (time_str, false)
    | _ => (time_str, false)

/-! ### Lemmas about `pyInt` on digit strings -/

theorem pyDigitBody_cons_digit (c : Char) (rest : List Char) (acc : Nat)
    (hc : c.isDigit = true) :
    pyDigitBody (c :: rest) acc = pyDigitBody rest (acc * 10 + digitVal c) := by
  rw [pyDigitBody.eq_def]
  simp [hc]

theorem pyDigitBody_all_digits :
    ∀ (cs : List Char) (acc : Nat), cs.all (·.isDigit) = true →
      pyDigitBody cs acc = some (cs.foldl (fun a c => a * 10 + digitVal c) acc) := by
  intro cs
  induction cs with
  | nil => intro acc _; rfl
  | cons c rest ih =>
    intro acc h
    simp only [List.all_cons, Bool.and_eq_true] at h
    rw [pyDigitBody_cons_digit c rest acc h.1, List.foldl_cons]
    exact ih _ h.2

theorem isPySpace_eq_false_of_isDigit {d : Char} (hd : d.isDigit = true) :
    isPySpace d = false := by
  cases hps : isPySpace d with
  | false => rfl
  | true =>
    exfalso
    unfold isPySpace at hps
    simp only [Bool.or_eq_true, decide_eq_true_eq] at hps
    rcases hps with ((((h | h) | h) | h) | h) | h <;> subst h <;>
      exact absurd hd (by decide)

theorem pyStrip_all_digits (cs : List Char) (h : cs.all (·.isDigit) = true) :
    pyStrip cs = cs := by
  have hnot : ∀ l : List Char, l.all (·.isDigit) = true → l.dropWhile isPySpace = l := by
    intro l hl
    cases l with
    | nil => rfl
    | cons x xs =>
      simp only [List.all_cons, Bool.and_eq_true] at hl
      simp [List.dropWhile_cons, isPySpace_eq_false_of_isDigit hl.1]
  unfold pyStrip
  rw [hnot cs h, hnot cs.reverse (by simpa using h), List.reverse_reverse]

theorem pyInt_digits (s : String) (h : isDigits s = true) :
    pyInt s = some ((natOfDigits s : Int)) := by
  unfold isDigits at h
  simp only [Bool.and_eq_true, Bool.not_eq_true'] at h
  obtain ⟨hne, hall⟩ := h
  unfold pyInt natOfDigits
  rw [pyStrip_all_digits s.data hall]
  cases hd : s.data with
  | nil => rw [hd] at hne; simp at hne
  | cons c rest =>
    rw [hd] at hall
    simp only [List.all_cons, Bool.and_eq_true] at hall
    have hcm : c ≠ '-' := by intro e; rw [e] at hall; exact absurd hall.1 (by decide)
    have hcp : c ≠ '+' := by intro e; rw [e] at hall; exact absurd hall.1 (by decide)
    simp only [pyIntCore, if_neg hcm, if_neg hcp, hall.1, if_true]
    rw [pyDigitBody_all_digits rest (digitVal c) hall.2]
    simp [List.foldl_cons]
theorem isDigit_toNat_bounds {c : Char} (h : c.isDigit = true) :
    48 ≤ c.toNat ∧ c.toNat ≤ 57 := by
  unfold Char.isDigit at h
  simp only [Bool.and_eq_true, decide_eq_true_eq] at h
  exact ⟨h.1, h.2⟩

theorem digitVal_le_9 {c : Char} (h : c.isDigit = true) : digitVal c ≤ 9 := by
  have hb := isDigit_toNat_bounds h
  unfold digitVal
  omega

theorem char_eq_ofNat_digitVal {c : Char} (h : c.isDigit = true) :
    c = Char.ofNat (48 + digitVal c) := by
  have hb := isDigit_toNat_bounds h
  have : 48 + digitVal c = c.toNat := by unfold digitVal; omega
  rw [this, Char.ofNat_toNat]

theorem pyFormat02_natOfDigits (m : String) (hm : isDigits m = true)
    (hl : m.length = 2) : pyFormat02 ((natOfDigits m : Int)) = m := by
  obtain ⟨cs⟩ := m
  have hl2 : cs.length = 2 := hl
  unfold isDigits at hm
  simp only [Bool.and_eq_true, Bool.not_eq_true'] at hm
  obtain ⟨hne, hall⟩ := hm
  obtain ⟨c1, c2, rfl⟩ := List.length_eq_two.mp hl2
  simp only [List.all_cons, List.all_nil, Bool.and_eq_true, and_true] at hall
  obtain ⟨h1, h2⟩ := hall
  obtain ⟨d1, hd1, rfl⟩ : ∃ d, d ≤ 9 ∧ c1 = Char.ofNat (48 + d) :=
    ⟨digitVal c1, digitVal_le_9 h1, char_eq_ofNat_digitVal h1⟩
  obtain ⟨d2, hd2, rfl⟩ : ∃ d, d ≤ 9 ∧ c2 = Char.ofNat (48 + d) :=
    ⟨digitVal c2, digitVal_le_9 h2, char_eq_ofNat_digitVal h2⟩
  interval_cases d1 <;> interval_cases d2 <;> decide

/-- C9: `time_to_seconds` maps every well-formed `HH:MM:SS` string (three
non-empty all-digit fields; hours may exceed 23) to exactly
`HH*3600 + MM*60 + SS` with no normalization — in particular
`time_to_seconds "25:30:00" = 91800` — and maps empty or malformed input
(wrong number of colon-separated fields, or a field that `int()` rejects)
to `0` without raising. -/
theorem time_to_seconds_spec :
    (∀ s h m sec, pySplit ':' s = [h, m, sec] →
      isDigits h = true → isDigits m = true → isDigits sec = true →
      time_to_seconds s =
        (natOfDigits h : Int) * 3600 + (natOfDigits m : Int) * 60 + (natOfDigits sec : Int))
    ∧ time_to_seconds "25:30:00" = 91800
    ∧ (∀ s, (pySplit ':' s).length ≠ 3 → time_to_seconds s = 0)
    ∧ (∀ s h m sec, pySplit ':' s = [h, m, sec] →
      pyInt h = none ∨ pyInt m = none ∨ pyInt sec = none →
      time_to_seconds s = 0) := by
  refine ⟨?_, by decide, ?_, ?_⟩
  · intro s h m sec hsplit hh hm hsec
    have hs : s ≠ "" := by
      intro e; subst e
      rw [show pySplit ':' "" = [""] from rfl] at hsplit
      exact absurd hsplit (by simp)
    unfold time_to_seconds
    rw [if_neg hs, hsplit]
    show (match pyInt h, pyInt m, pyInt sec with
      | some hours, some minutes, some seconds =>
        hours * 3600 + minutes * 60 + seconds
      | _, _, _ => (0 : Int)) =
      (natOfDigits h : Int) * 3600 + (natOfDigits m : Int) * 60 + (natOfDigits sec : Int)
    rw [pyInt_digits h hh, pyInt_digits m hm, pyInt_digits sec hsec]
  · intro s hlen
    unfold time_to_seconds
    by_cases hs : s = ""
    · rw [if_pos hs]
    · rw [if_neg hs]
      cases hps : pySplit ':' s with
      | nil => rfl
      | cons a t =>
        cases t with
        | nil => rfl
        | cons b t2 =>
          cases t2 with
          | nil => rfl
          | cons c t3 =>
            cases t3 with
            | nil => rw [hps] at hlen; exact absurd rfl hlen
            | cons d t4 => rfl
  · intro s h m sec hsplit hnone
    have hs : s ≠ "" := by
      intro e; subst e
      rw [show pySplit ':' "" = [""] from rfl] at hsplit
      exact absurd hsplit (by simp)
    unfold time_to_seconds
    rw [if_neg hs, hsplit]
    show (match pyInt h, pyInt m, pyInt sec with
      | some hours, some minutes, some seconds =>
        hours * 3600 + minutes * 60 + seconds
      | _, _, _ => (0 : Int)) = (0 : Int)
    rcases hnone with hn | hn | hn
    · rw [hn]
    · cases h1 : pyInt h with
      | none => rfl
      | some a => rw [hn]
    · cases h1 : pyInt h with
      | none => rfl
      | some a =>
        cases h2 : pyInt m with
        | none => rfl
        | some b => rw [hn]

/-- Witness for C9 at concrete inputs: a well-formed time, a two-field
time, and a time with non-integer fields. -/
theorem time_to_seconds_spec_witness :
    time_to_seconds "07:08:09" = 25689 ∧ time_to_seconds "1:2" = 0 ∧
      time_to_seconds "aa:bb:cc" = 0 := by
  refine ⟨?_, ?_, ?_⟩
  · have h := time_to_seconds_spec.1 "07:08:09" "07" "08" "09"
      (by decide) (by decide) (by decide) (by decide)
    rw [h]; decide
  · exact time_to_seconds_spec.2.2.1 "1:2" (by decide)
  · exact time_to_seconds_spec.2.2.2 "aa:bb:cc" "aa" "bb" "cc" (by decide)
      (Or.inl (by decide))

/-- C8: `normalize_gtfs_time` is total and never raises: on a well-formed
`HH:MM:SS` whose hour value is at least 24 it returns the same time with 24
subtracted from the hour and the minute/second fields unchanged, paired with
`true`; on a well-formed time with hour below 24 it returns the input
unchanged with `false`; and on empty or unparseable input it returns the
input unchanged with `false`. -/
theorem normalize_gtfs_time_spec :
    (∀ s h m sec, pySplit ':' s = [h, m, sec] →
      isDigits h = true → isDigits m = true → isDigits sec = true →
      m.length = 2 → sec.length = 2 →
      (24 ≤ natOfDigits h →
        normalize_gtfs_time s =
          (pyFormat02 ((natOfDigits h : Int) - 24) ++ ":" ++ m ++ ":" ++ sec, true))
      ∧ (natOfDigits h < 24 → normalize_gtfs_time s = (s, false)))
    ∧ (∀ s, (pySplit ':' s).length ≠ 3 → normalize_gtfs_time s = (s, false))
    ∧ (∀ s h m sec, pySplit ':' s = [h, m, sec] →
      pyInt h = none ∨ pyInt m = none ∨ pyInt sec = none →
      normalize_gtfs_time s = (s, false))
    ∧ normalize_gtfs_time "" = ("", false) := by
  refine ⟨?_, ?_, ?_, rfl⟩
  · intro s h m sec hsplit hh hm hsec hlm hlsec
    have hs : s ≠ "" := by
      intro e; subst e
      rw [show pySplit ':' "" = [""] from rfl] at hsplit
      exact absurd hsplit (by simp)
    constructor
    · intro hge
      unfold normalize_gtfs_time
      rw [if_neg hs, hsplit]
      show (match pyInt h, pyInt m, pyInt sec with
        | some hours, some minutes, some seconds =>
          if 24 ≤ hours then
            (pyFormat02 (hours - 24) ++ ":" ++ pyFormat02 minutes ++ ":" ++
              pyFormat02 seconds, true)
          else (s, false)
        | _, _, _ => (s, false)) =
        (pyFormat02 ((natOfDigits h : Int) - 24) ++ ":" ++ m ++ ":" ++ sec, true)
      rw [pyInt_digits h hh, pyInt_digits m hm, pyInt_digits sec hsec]
      show (if (24 : Int) ≤ ((natOfDigits h : Int)) then
          (pyFormat02 ((natOfDigits h : Int) - 24) ++ ":" ++
            pyFormat02 ((natOfDigits m : Int)) ++ ":" ++
            pyFormat02 ((natOfDigits sec : Int)), true)
        else (s, false)) =
        (pyFormat02 ((natOfDigits h : Int) - 24) ++ ":" ++ m ++ ":" ++ sec, true)
      rw [if_pos (by exact_mod_cast hge),
        pyFormat02_natOfDigits m hm hlm, pyFormat02_natOfDigits sec hsec hlsec]
    · intro hlt
      unfold normalize_gtfs_time
      rw [if_neg hs, hsplit]
      show (match pyInt h, pyInt m, pyInt sec with
        | some hours, some minutes, some seconds =>
          if 24 ≤ hours then
            (pyFormat02 (hours - 24) ++ ":" ++ pyFormat02 minutes ++ ":" ++
              pyFormat02 seconds, true)
          else (s, false)
        | _, _, _ => (s, false)) = (s, false)
      rw [pyInt_digits h hh, pyInt_digits m hm, pyInt_digits sec hsec]
      show (if (24 : Int) ≤ ((natOfDigits h : Int)) then
          (pyFormat02 ((natOfDigits h : Int) - 24) ++ ":" ++
            pyFormat02 ((natOfDigits m : Int)) ++ ":" ++
            pyFormat02 ((natOfDigits sec : Int)), true)
        else (s, false)) = (s, false)
      rw [if_neg (by exact_mod_cast Nat.not_le.mpr hlt)]
  · intro s hlen
    unfold normalize_gtfs_time
    by_cases hs : s = ""
    · rw [if_pos hs]
    · rw [if_neg hs]
      cases hps : pySplit ':' s with
      | nil => rfl
      | cons a t =>
        cases t with
        | nil => rfl
        | cons b t2 =>
          cases t2 with
          | nil => rfl
          | cons c t3 =>
            cases t3 with
            | nil => rw [hps] at hlen; exact absurd rfl hlen
            | cons d t4 => rfl
  · intro s h m sec hsplit hnone
    have hs : s ≠ "" := by
      intro e; subst e
      rw [show pySplit ':' "" = [""] from rfl] at hsplit
      exact absurd hsplit (by simp)
    unfold normalize_gtfs_time
    rw [if_neg hs, hsplit]
    show (match pyInt h, pyInt m, pyInt sec with
      | some hours, some minutes, some seconds =>
        if 24 ≤ hours then
          (pyFormat02 (hours - 24) ++ ":" ++ pyFormat02 minutes ++ ":" ++
            pyFormat02 seconds, true)
        else (s, false)
      | _, _, _ => (s, false)) = (s, false)
    rcases hnone with hn | hn | hn
    · rw [hn]
    · cases h1 : pyInt h with
      | none => rfl
      | some a => rw [hn]
    · cases h1 : pyInt h with
      | none => rfl
      | some a =>
        cases h2 : pyInt m with
        | none => rfl
        | some b => rw [hn]

/-- Witness for C8 at concrete inputs: a next-day time, a same-day time,
an unparseable time and the empty string. -/
theorem normalize_gtfs_time_spec_witness :
    normalize_gtfs_time "25:30:00" = ("01:30:00", true) ∧
      normalize_gtfs_time "12:00:00" = ("12:00:00", false) ∧
      normalize_gtfs_time "abc" = ("abc", false) := by
  refine ⟨?_, ?_, ?_⟩
  · have h := (normalize_gtfs_time_spec.1 "25:30:00" "25" "30" "00"
      (by decide) (by decide) (by decide) (by decide) (by decide) (by decide)).1
      (by decide)
    rw [h]; decide
  · exact (normalize_gtfs_time_spec.1 "12:00:00" "12" "00" "00"
      (by decide) (by decide) (by decide) (by decide) (by decide) (by decide)).2
      (by decide)
  · exact normalize_gtfs_time_spec.2.1 "abc" (by decide)

/-! ## Dates: `datetime.strptime(date, '%Y-%m-%d').weekday()` -/

/-- Gregorian leap-year rule (as in Python's `datetime`). -/
def isLeapYear (y : Nat) : Bool := (y % 4 = 0 && y % 100 ≠ 0) || y % 400 = 0

/-- Days in month `m` of year `y` (months 1-12). -/
def daysInMonth (y m : Nat) : Nat :=
  if m = 2 then (if isLeapYear y then 29 else 28)
  else if m = 4 || m = 6 || m = 9 || m = 11 then 30
  else 31

/-- Days in year `y` before the first day of month `m`. -/
def daysBeforeMonth (y m : Nat) : Nat :=
  (List.range (m - 1)).foldl (fun a i => a + daysInMonth y (i + 1)) 0

/-- Proleptic-Gregorian ordinal of a date, with `(1,1,1) ↦ 1`; agrees with
Python's `datetime.date.toordinal`. -/
def ordinalOfDate (y m d : Nat) : Nat :=
  365 * (y - 1) + (y - 1) / 4 + (y - 1) / 400 - (y - 1) / 100 +
    daysBeforeMonth y m + d

/-- Weekday with Monday = 0 .. Sunday = 6, as Python's `date.weekday()`. -/
def weekdayOfDate (y m d : Nat) : Nat := (ordinalOfDate y m d - 1) % 7

/-- `datetime.strptime(s, '%Y-%m-%d')`, restricted to its all-digit inputs:
`some (y, m, d)` for a real calendar date, `none` where `strptime` raises
`ValueError`. -/
def parseDate (s : String) : Option (Nat × Nat × Nat) :=
  match pySplit '-' s with
  | [ys, ms, ds] =>
    if isDigits ys && isDigits ms && isDigits ds then
      let y := natOfDigits ys
      let m := natOfDigits ms
      let d := natOfDigits ds
      if 1 ≤ y ∧ y ≤ 9999 ∧ 1 ≤ m ∧ m ≤ 12 ∧ 1 ≤ d ∧ d ≤ daysInMonth y m then
        some (y, m, d)
      else none
    else none
  | _ => none

/-- Weekday of a `YYYY-MM-DD` string (`none` = `strptime` raises). -/
def weekdayOf (s : String) : Option Nat :=
  (parseDate s).map (fun t => weekdayOfDate t.1 t.2.1 t.2.2)

/-! ## src/src/services.py -/

/-- A data row of `calendar.txt` as read by `get_active_services`
(src/src/services.py lines 53-64): the weekday columns, the service id and
the validity window, all as raw strings. -/
structure CalendarRow where
  service_id : String
  monday : String
  tuesday : String
  wednesday : String
  thursday : String
  friday : String
  saturday : String
  sunday : String
  start_date : String
  end_date : String
deriving DecidableEq

/-- A data row of `calendar_dates.txt` (src/src/services.py lines 87-103). -/
structure CalendarDateRow where
  service_id : String
  date : String
  exception_type : String
deriving DecidableEq

/-- The two calendar files of a feed; `none` models a missing file. -/
structure ServiceFeed where
  calendar : Option (List CalendarRow)
  calendar_dates : Option (List CalendarDateRow)
deriving DecidableEq

/-- src/src/services.py line 20:
`date.replace("-", "").replace(":", "").replace("/", "")`. -/
def searchDateOf (date : String) : String :=
  String.mk (date.data.filter (fun c => !(c = '-' || c = ':' || c = '/')))

/-- src/src/services.py lines 43-51: `weekday_columns[weekday]` applied to a
row (the weekday produced by `date.weekday()` is always 0-6). -/
def dayValue (r : CalendarRow) (w : Nat) : String :=
  match w with
  | 0 => r.monday
  | 1 => r.tuesday
  | 2 => r.wednesday
  | 3 => r.thursday
  | 4 => r.friday
  | 5 => r.saturday
  | _ => r.sunday

/-- src/src/services.py lines 53-64: append `service_id` for every calendar
row whose weekday column is `"1"`.  The `start_date`/`end_date` columns are
never read. -/
def calendarActive (rows : List CalendarRow) (w : Nat) : List String :=
  rows.foldl (fun acc r => if dayValue r w = "1" then acc ++ [r.service_id] else acc) []

/-- The active list after the `calendar.txt` block: empty when the file is
missing (`FileNotFoundError` branch, line 65) or has no data rows. -/
def calendarPhase (feed : ServiceFeed) (w : Nat) : List String :=
  match feed.calendar with
  | none => []
  | some rows => calendarActive rows w

/-- src/src/services.py lines 87-103: one pass over the `calendar_dates.txt`
rows in file order; a type-1 exception for the searched date appends the
service id, a type-2 exception removes its first occurrence if present
(`list.remove`). -/
def applyCalendarDates (active : List String) (search_date : String)
    (rows : List CalendarDateRow) : List String :=
  rows.foldl (fun acc r =>
    let acc1 := if r.date = search_date ∧ r.exception_type = "1"
      then acc ++ [r.service_id] else acc
    if r.date = search_date ∧ r.exception_type = "2" then
      (if r.service_id ∈ acc1 then acc1.erase r.service_id else acc1)
    else acc1) active

/-- src/src/services.py lines 7-107, `get_active_services`: `none` models the
`ValueError` raised by `strptime` on a bad date.  A missing
`calendar_dates.txt` (line 104) leaves the calendar-phase list unchanged. -/
def get_active_services (feed : ServiceFeed) (date : String) :
    Option (List String) :=
  let search_date := searchDateOf date
  (weekdayOf date).map (fun weekday =>
    let active1 := calendarPhase feed weekday
    match feed.calendar_dates with
    | none => active1
    | some rows => applyCalendarDates active1 search_date rows)

/-! ### Counting through the exception pass -/

/-- Effect of one `calendar_dates.txt` row on the number of occurrences of
service `s` in the active list. -/
def excStep (s search : String) (c : Nat) (r : CalendarDateRow) : Nat :=
  if r.date = search ∧ r.exception_type = "1" ∧ r.service_id = s then c + 1
  else if r.date = search ∧ r.exception_type = "2" ∧ r.service_id = s then c - 1
  else c

theorem excStep_add {r : CalendarDateRow} {s search : String} {c : Nat}
    (hd : r.date = search) (he : r.exception_type = "1") (hs : r.service_id = s) :
    excStep s search c r = c + 1 := by
  unfold excStep
  rw [if_pos ⟨hd, he, hs⟩]

theorem excStep_remove {r : CalendarDateRow} {s search : String} {c : Nat}
    (hd : r.date = search) (he : r.exception_type = "2") (hs : r.service_id = s) :
    excStep s search c r = c - 1 := by
  unfold excStep
  rw [if_neg (fun hc => by rw [he] at hc; exact absurd hc.2.1 (by decide)),
    if_pos ⟨hd, he, hs⟩]

theorem excStep_not_sid {r : CalendarDateRow} {s search : String} {c : Nat}
    (hs : r.service_id ≠ s) : excStep s search c r = c := by
  unfold excStep
  rw [if_neg (fun hc => hs hc.2.2), if_neg (fun hc => hs hc.2.2)]

theorem excStep_not_rel {r : CalendarDateRow} {s search : String} {c : Nat}
    (h1 : ¬(r.date = search ∧ r.exception_type = "1"))
    (h2 : ¬(r.date = search ∧ r.exception_type = "2")) :
    excStep s search c r = c := by
  unfold excStep
  rw [if_neg (fun hc => h1 ⟨hc.1, hc.2.1⟩), if_neg (fun hc => h2 ⟨hc.1, hc.2.1⟩)]

theorem count_applyCalendarDates (s search : String) :
    ∀ (rows : List CalendarDateRow) (active : List String),
      (applyCalendarDates active search rows).count s =
        rows.foldl (excStep s search) (active.count s) := by
  intro rows
  induction rows with
  | nil => intro active; rfl
  | cons r rest ih =>
    intro active
    have hstep :
        (applyCalendarDates active search (r :: rest)) =
          applyCalendarDates
            (let acc1 := if r.date = search ∧ r.exception_type = "1"
                then active ++ [r.service_id] else active
             if r.date = search ∧ r.exception_type = "2" then
               (if r.service_id ∈ acc1 then acc1.erase r.service_id else acc1)
             else acc1) search rest := rfl
    rw [hstep, ih, List.foldl_cons]
    congr 1
    by_cases h1 : r.date = search ∧ r.exception_type = "1"
    · have h2 : ¬(r.date = search ∧ r.exception_type = "2") := by
        rintro ⟨-, he⟩
        rw [h1.2] at he
        exact absurd he (by decide)
      simp only [if_pos h1, if_neg h2]
      by_cases hsid : r.service_id = s
      · rw [excStep_add h1.1 h1.2 hsid, List.count_append, hsid]
        simp
      · rw [excStep_not_sid hsid, List.count_append]
        have h0 : List.count s [r.service_id] = 0 := by
          simp [List.count_cons, Ne.symm hsid]
        omega
    · simp only [if_neg h1]
      by_cases h2 : r.date = search ∧ r.exception_type = "2"
      · simp only [if_pos h2]
        by_cases hsid : r.service_id = s
        · rw [excStep_remove h2.1 h2.2 hsid]
          by_cases hmem : r.service_id ∈ active
          · rw [if_pos hmem, ← hsid, List.count_erase_self]
          · rw [if_neg hmem]
            have h0 : List.count s active = 0 := by
              rw [← hsid]
              exact List.count_eq_zero.mpr hmem
            omega
        · rw [excStep_not_sid hsid]
          by_cases hmem : r.service_id ∈ active
          · rw [if_pos hmem, List.count_erase_of_ne (Ne.symm hsid)]
          · rw [if_neg hmem]
      · simp only [if_neg h2]
        exact (excStep_not_rel h1 h2).symm

theorem foldl_excStep_filter (s search : String) :
    ∀ (rows : List CalendarDateRow) (c : Nat),
      rows.foldl (excStep s search) c =
        (rows.filter (fun r => r.service_id == s && r.date == search)).foldl
          (excStep s search) c := by
  intro rows
  induction rows with
  | nil => intro c; rfl
  | cons r rest ih =>
    intro c
    rw [List.foldl_cons, List.filter_cons]
    by_cases hp : r.service_id = s ∧ r.date = search
    · rw [if_pos (by simp [hp.1, hp.2]), List.foldl_cons]
      exact ih _
    · have hstep : excStep s search c r = c := by
        unfold excStep
        rw [if_neg (fun hc => hp ⟨hc.2.2, hc.1⟩),
          if_neg (fun hc => hp ⟨hc.2.2, hc.1⟩)]
      rw [if_neg (by
          simp only [Bool.and_eq_true, beq_iff_eq]
          exact fun hc => hp ⟨hc.1, hc.2⟩), hstep]
      exact ih _

theorem count_get_active_services (feed : ServiceFeed) (date : String)
    (w : Nat) (hw : weekdayOf date = some w) (res : List String)
    (hres : get_active_services feed date = some res) (s : String) :
    res.count s =
      (feed.calendar_dates.getD []).foldl (excStep s (searchDateOf date))
        ((calendarPhase feed w).count s) := by
  have hres2 :
      (match feed.calendar_dates with
        | none => calendarPhase feed w
        | some rows =>
          applyCalendarDates (calendarPhase feed w) (searchDateOf date) rows) = res := by
    unfold get_active_services at hres
    rw [hw, Option.map_some'] at hres
    exact Option.some.inj hres
  cases hcd : feed.calendar_dates with
  | none =>
    rw [hcd] at hres2
    rw [← hres2]
    rfl
  | some rows =>
    rw [hcd] at hres2
    rw [← hres2]
    exact count_applyCalendarDates s (searchDateOf date) rows (calendarPhase feed w)

/-- Feed for the C1 counterexample: no calendar rows, and `calendar_dates.txt`
containing a type-2 removal for `("S1", 20250623)` *before* a type-1 addition
for the same service and date. -/
def feedC1 : ServiceFeed :=
  { calendar := some []
    calendar_dates := some [⟨"S1", "20250623", "2"⟩, ⟨"S1", "20250623", "1"⟩] }

/-- C1 counterexample: 2025-06-23 has both a type-1 and a type-2
`calendar_dates` exception for service `"S1"`, yet `get_active_services`
returns `["S1"]` — the removal does not win when the addition row comes
later in the file, so the result is not order-independent. -/
theorem get_active_services_removal_order_counterexample :
    feedC1.calendar_dates =
      some [⟨"S1", "20250623", "2"⟩, ⟨"S1", "20250623", "1"⟩]
    ∧ searchDateOf "2025-06-23" = "20250623"
    ∧ get_active_services feedC1 "2025-06-23" = some ["S1"]
    ∧ "S1" ∈ ["S1"] := by
  refine ⟨rfl, by decide, by decide, by decide⟩

/-- C1 (amended): `get_active_services` applies `calendar_dates.txt` rows in
file order, a type-2 removal deleting at most one occurrence of the service
present at that point.  Hence, for every feed, valid date and service, the
number of occurrences of the service in the result is the fold of `excStep`
over the exception rows starting from its calendar-phase count, and the
service is excluded iff that running count ends at zero — so a removal wins
only over additions (and calendar activations) that precede it. -/
theorem get_active_services_exception_fold (feed : ServiceFeed) (date : String)
    (w : Nat) (hw : weekdayOf date = some w) (res : List String)
    (hres : get_active_services feed date = some res) (s : String) :
    res.count s =
      (feed.calendar_dates.getD []).foldl (excStep s (searchDateOf date))
        ((calendarPhase feed w).count s)
    ∧ (s ∈ res ↔
        0 < (feed.calendar_dates.getD []).foldl (excStep s (searchDateOf date))
          ((calendarPhase feed w).count s)) := by
  have hc := count_get_active_services feed date w hw res hres s
  refine ⟨hc, ?_⟩
  rw [← hc]
  exact List.count_pos_iff.symm

/-- Witness for the amended C1 theorem at the concrete feed `feedC1` and
date 2025-06-23 (a Monday, weekday 0). -/
theorem get_active_services_exception_fold_witness :
    (["S1"] : List String).count "S1" =
      [CalendarDateRow.mk "S1" "20250623" "2",
        CalendarDateRow.mk "S1" "20250623" "1"].foldl
        (excStep "S1" (searchDateOf "2025-06-23"))
        ((calendarPhase feedC1 0).count "S1")
    ∧ ("S1" ∈ (["S1"] : List String) ↔
        0 < [CalendarDateRow.mk "S1" "20250623" "2",
          CalendarDateRow.mk "S1" "20250623" "1"].foldl
          (excStep "S1" (searchDateOf "2025-06-23"))
          ((calendarPhase feedC1 0).count "S1")) :=
  get_active_services_exception_fold feedC1 "2025-06-23" 0 (by decide) ["S1"]
    (by decide) "S1"

/-- C10: with a calendar-phase count of one (the service's weekday flag is
set on exactly one calendar row) and a single matching type-1 exception, the
service occurs twice in the result; with a type-1 then a type-2 exception,
the single removal deletes only one occurrence and the service is still
present. -/
theorem get_active_services_duplicate_occurrences (feed : ServiceFeed)
    (date : String) (w : Nat) (hw : weekdayOf date = some w) (res : List String)
    (hres : get_active_services feed date = some res) (s : String)
    (hphase : (calendarPhase feed w).count s = 1) :
    ((feed.calendar_dates.getD []).filter
        (fun r => r.service_id == s && r.date == searchDateOf date) =
        [⟨s, searchDateOf date, "1"⟩] → res.count s = 2)
    ∧ ((feed.calendar_dates.getD []).filter
        (fun r => r.service_id == s && r.date == searchDateOf date) =
        [⟨s, searchDateOf date, "1"⟩, ⟨s, searchDateOf date, "2"⟩] →
        res.count s = 1 ∧ s ∈ res) := by
  have hadd : ∀ c : Nat, excStep s (searchDateOf date) c
      ⟨s, searchDateOf date, "1"⟩ = c + 1 := fun c => excStep_add rfl rfl rfl
  have hrem : ∀ c : Nat, excStep s (searchDateOf date) c
      ⟨s, searchDateOf date, "2"⟩ = c - 1 := fun c => excStep_remove rfl rfl rfl
  have hc := count_get_active_services feed date w hw res hres s
  rw [hphase, foldl_excStep_filter] at hc
  constructor
  · intro hfil
    rw [hfil, List.foldl_cons, hadd, List.foldl_nil] at hc
    exact hc
  · intro hfil
    rw [hfil, List.foldl_cons, hadd, List.foldl_cons, hrem, List.foldl_nil] at hc
    refine ⟨by omega, List.count_pos_iff.mp (by omega)⟩

/-- A calendar row activating `"S1"` on Mondays with a June-2025 validity
window (used by the C3 and C10 witnesses). -/
def rowMonday : CalendarRow :=
  ⟨"S1", "1", "0", "0", "0", "0", "0", "0", "20250601", "20250630"⟩

/-- Feed for the C10 witness: `"S1"` active on Mondays via `calendar.txt`,
plus an addition and then a removal exception for 2025-06-23. -/
def feedC10 : ServiceFeed :=
  { calendar := some [rowMonday]
    calendar_dates := some [⟨"S1", "20250623", "1"⟩, ⟨"S1", "20250623", "2"⟩] }

/-- Feed for the C10 witness without the removal row. -/
def feedC10a : ServiceFeed :=
  { calendar := some [rowMonday]
    calendar_dates := some [⟨"S1", "20250623", "1"⟩] }

/-- Witness for C10 at concrete feeds: with calendar activation plus one
addition the result is `["S1", "S1"]` (count 2); appending one removal
leaves `["S1"]` — the service is still present. -/
theorem get_active_services_duplicate_occurrences_witness :
    get_active_services feedC10a "2025-06-23" = some ["S1", "S1"]
    ∧ (["S1", "S1"] : List String).count "S1" = 2
    ∧ get_active_services feedC10 "2025-06-23" = some ["S1"]
    ∧ (["S1"] : List String).count "S1" = 1 ∧ "S1" ∈ (["S1"] : List String) := by
  refine ⟨by decide, ?_, by decide, ?_⟩
  · exact (get_active_services_duplicate_occurrences feedC10a "2025-06-23" 0
      (by decide) ["S1", "S1"] (by decide) "S1" (by decide)).1 (by decide)
  · exact (get_active_services_duplicate_occurrences feedC10 "2025-06-23" 0
      (by decide) ["S1"] (by decide) "S1" (by decide)).2 (by decide)

theorem foldl_calendarActive_append (w : Nat) :
    ∀ (rows : List CalendarRow) (init : List String),
      rows.foldl (fun acc r =>
          if dayValue r w = "1" then acc ++ [r.service_id] else acc) init =
        init ++ (rows.filter (fun r => dayValue r w == "1")).map
          (fun r => r.service_id) := by
  intro rows
  induction rows with
  | nil => intro init; simp
  | cons r rest ih =>
    intro init
    rw [List.foldl_cons, List.filter_cons]
    by_cases h : dayValue r w = "1"
    · rw [if_pos h, if_pos (by simp [h]), ih, List.map_cons]
      simp
    · rw [if_neg h, if_neg (by simp [h]), ih]

theorem mem_calendarActive {rows : List CalendarRow} {w : Nat}
    {r : CalendarRow} (hr : r ∈ rows) (hday : dayValue r w = "1") :
    r.service_id ∈ calendarActive rows w := by
  unfold calendarActive
  rw [foldl_calendarActive_append, List.nil_append, List.mem_map]
  exact ⟨r, List.mem_filter.mpr ⟨hr, by simp [hday]⟩, rfl⟩

theorem dayValue_update (r : CalendarRow) (w : Nat) (a b : String) :
    dayValue { r with start_date := a, end_date := b } w = dayValue r w := by
  rcases w with _ | _ | _ | _ | _ | _ | w <;> rfl

theorem calendarActive_update_aux (w : Nat) (f g : CalendarRow → String) :
    ∀ (rows : List CalendarRow) (init : List String),
      (rows.map (fun r => { r with start_date := f r, end_date := g r })).foldl
        (fun acc r => if dayValue r w = "1" then acc ++ [r.service_id] else acc)
        init =
      rows.foldl
        (fun acc r => if dayValue r w = "1" then acc ++ [r.service_id] else acc)
        init := by
  intro rows
  induction rows with
  | nil => intro init; rfl
  | cons r rest ih =>
    intro init
    have hifs :
        (if dayValue { r with start_date := f r, end_date := g r } w = "1"
          then init ++ [({ r with start_date := f r, end_date := g r} :
            CalendarRow).service_id] else init) =
        (if dayValue r w = "1" then init ++ [r.service_id] else init) := by
      rw [dayValue_update]
    rw [List.map_cons, List.foldl_cons, List.foldl_cons, hifs]
    exact ih _

theorem calendarActive_update (rows : List CalendarRow) (w : Nat)
    (f g : CalendarRow → String) :
    calendarActive
      (rows.map (fun r => { r with start_date := f r, end_date := g r })) w =
      calendarActive rows w :=
  calendarActive_update_aux w f g rows []

/-- C3: `get_active_services` never reads a calendar row's
`start_date`/`end_date`: rewriting those two columns arbitrarily leaves the
result unchanged (first conjunct); a row whose weekday column is `"1"`
always contributes its `service_id` to the calendar-phase active list
(second conjunct); and with no `calendar_dates.txt` the result is exactly
the calendar phase (third conjunct) — so a flagged service is included even
for dates outside its declared validity window. -/
theorem get_active_services_ignores_validity_window :
    (∀ (feed : ServiceFeed) (date : String) (f g : CalendarRow → String),
      get_active_services
        { feed with calendar := feed.calendar.map (List.map (fun r =>
            { r with start_date := f r, end_date := g r })) } date
        = get_active_services feed date)
    ∧ (∀ (rows : List CalendarRow) (w : Nat) (r : CalendarRow), r ∈ rows →
        dayValue r w = "1" → r.service_id ∈ calendarActive rows w)
    ∧ (∀ (feed : ServiceFeed) (date : String) (w : Nat),
        weekdayOf date = some w → feed.calendar_dates = none →
        get_active_services feed date = some (calendarPhase feed w)) := by
  refine ⟨?_, fun rows w r hr hday => mem_calendarActive hr hday, ?_⟩
  · intro feed date f g
    obtain ⟨cal, cd⟩ := feed
    have hphase : ∀ w : Nat,
        calendarPhase ⟨Option.map (List.map (fun r =>
          { r with start_date := f r, end_date := g r })) cal, cd⟩ w =
        calendarPhase ⟨cal, cd⟩ w := by
      intro w
      cases cal with
      | none => rfl
      | some rows => exact calendarActive_update rows w f g
    unfold get_active_services
    cases hw : weekdayOf date with
    | none => rfl
    | some w =>
      simp only [Option.map_some']
      cases cd with
      | none => exact congrArg some (hphase w)
      | some rows =>
        exact congrArg (fun l => some (applyCalendarDates l (searchDateOf date) rows))
          (hphase w)
  · intro feed date w hw hcd
    unfold get_active_services
    rw [hw, Option.map_some']
    cases hfd : feed.calendar_dates with
    | none => rfl
    | some rows => rw [hfd] at hcd; exact absurd hcd (by simp)

/-- Witness for C3: the same Monday-flagged row with its validity window
rewritten to January 1900 yields the same result; the row's service is in
the calendar phase for weekday 0; and for 2025-07-07 — a Monday *outside*
the row's June 2025 window — the service is still returned. -/
theorem get_active_services_ignores_validity_window_witness :
    get_active_services
      (⟨some [({ rowMonday with start_date := "19000101", end_date := "19000102" } : CalendarRow)],
        none⟩ : ServiceFeed) "2025-07-07"
      = get_active_services (⟨some [rowMonday], none⟩ : ServiceFeed) "2025-07-07"
    ∧ "S1" ∈ calendarActive [rowMonday] 0
    ∧ get_active_services (⟨some [rowMonday], none⟩ : ServiceFeed) "2025-07-07"
      = some (calendarPhase (⟨some [rowMonday], none⟩ : ServiceFeed) 0) := by
  refine ⟨get_active_services_ignores_validity_window.1
      (⟨some [rowMonday], none⟩ : ServiceFeed) "2025-07-07"
      (fun _ => "19000101") (fun _ => "19000102"),
    get_active_services_ignores_validity_window.2.1 [rowMonday] 0 rowMonday
      (by decide) (by decide),
    get_active_services_ignores_validity_window.2.2
      (⟨some [rowMonday], none⟩ : ServiceFeed) "2025-07-07" 0 (by decide) rfl⟩

instance {e a : Type} [DecidableEq e] [DecidableEq a] : DecidableEq (Except e a) :=
  fun x y =>
  match x, y with
  | .error u, .error v =>
    if h : u = v then .isTrue (congrArg Except.error h)
    else .isFalse (fun hc => h (Except.error.inj hc))
  | .ok u, .ok v =>
    if h : u = v then .isTrue (congrArg Except.ok h)
    else .isFalse (fun hc => h (Except.ok.inj hc))
  | .error _, .ok _ => .isFalse (fun hc => Except.noConfusion hc)
  | .ok _, .error _ => .isFalse (fun hc => Except.noConfusion hc)

/-- `sub` occurs as a contiguous substring of `l` (Python's `in` on str). -/
def containsSub (sub l : List Char) : Bool :=
  (List.range (l.length + 1)).any (fun i => ((l.drop i).take sub.length) == sub)

/-! ## src/src/service_extractor/lcg_muni.py -/

namespace Lcg

/-- src/src/service_extractor/lcg_muni.py lines 6-24,
`extract_service_name_from_identifier`: raise `ValueError` (modelled as
`.error`) for an empty or sub-7-character identifier, else drop the last six
characters (`service_identifier[:-6]`). -/
def extract_service_name_from_identifier (service_identifier : String) :
    Except String String :=
  if service_identifier = "" ∨ service_identifier.length < 7 then
    Except.error "Invalid service identifier: must be at least 7 characters long"
  else Except.ok (service_identifier.take (service_identifier.length - 6))

end Lcg

/-- C7: the LCG extractor raises an identifier-format error for every
identifier shorter than 7 characters (including the empty string), returns
the identifier minus its last 6 characters for every identifier of length at
least 7, and maps `"100010731"` to `"100"`. -/
theorem lcg_extract_spec :
    (∀ s : String, s.length < 7 →
      Lcg.extract_service_name_from_identifier s =
        Except.error "Invalid service identifier: must be at least 7 characters long")
    ∧ (∀ s : String, 7 ≤ s.length →
      Lcg.extract_service_name_from_identifier s =
        Except.ok (s.take (s.length - 6)))
    ∧ Lcg.extract_service_name_from_identifier "100010731" = Except.ok "100" := by
  refine ⟨?_, ?_, by decide⟩
  · intro s hlen
    unfold Lcg.extract_service_name_from_identifier
    rw [if_pos (Or.inr hlen)]
  · intro s hlen
    have hc : ¬(s = "" ∨ s.length < 7) := by
      rintro (he | hl)
      · rw [he] at hlen; exact absurd hlen (by decide)
      · omega
    unfold Lcg.extract_service_name_from_identifier
    rw [if_neg hc]

/-- Witness for C7 at concrete identifiers: the empty string and a
6-character identifier raise; a 7-character identifier keeps its first
character. -/
theorem lcg_extract_spec_witness :
    Lcg.extract_service_name_from_identifier "" =
      Except.error "Invalid service identifier: must be at least 7 characters long"
    ∧ Lcg.extract_service_name_from_identifier "123456" =
      Except.error "Invalid service identifier: must be at least 7 characters long"
    ∧ Lcg.extract_service_name_from_identifier "abcdefg" = Except.ok "a" := by
  refine ⟨lcg_extract_spec.1 "" (by decide), lcg_extract_spec.1 "123456" (by decide), ?_⟩
  rw [lcg_extract_spec.2.1 "abcdefg" (by decide)]
  decide

/-! ## src/src/service_extractor/vgo_muni.py -/

namespace Vgo

/-- The fixed line-number → display-name table `_LINE_NAME_MAP`. -/
def _LINE_NAME_MAP : List (Nat × String) :=
  [(1, "C1"), (3, "C3"), (30, "N1"), (33, "N4"), (8, "A"), (101, "H"),
    (150, "REF"), (500, "TUR")]

/-- src/src/service_extractor/vgo_muni.py lines 64-67: dictionary lookup
with fallback `f"L{line_number}"`. -/
def get_actual_line_name (line_number : Nat) : String :=
  (_LINE_NAME_MAP.lookup line_number).getD ("L" ++ toString line_number)

/-- The compiled regex `^.+_([0-9]{6})$` (`_SERVICE_NAME_PATTERN`):
`some` the captured six-digit group iff the identifier consists of at least
one non-newline character, an underscore, and exactly six digits at the end.
Python's `$` also matches just before one trailing newline, so a single
final newline is stripped before the test. -/
def serviceNameMatch (s : String) : Option String :=
  let cs := if s.data.getLast? = some '\n' then s.data.dropLast else s.data
  let n := cs.length
  if 8 ≤ n ∧ cs.get? (n - 7) = some '_' ∧ (cs.drop (n - 6)).all (·.isDigit)
      ∧ (cs.take (n - 7)).all (fun c => c ≠ '\n') then
    some (String.mk (cs.drop (n - 6)))
  else none

/-- src/src/service_extractor/vgo_muni.py lines 30-62,
`extract_service_name_from_identifier`: a non-matching identifier is logged
and returned unchanged; a match is split into a 3-digit line number and a
3-digit shift code (`int()` on all-digit strings, hence `natOfDigits`) and
rendered with the format string of line 62, whose source bytes are the
(mojibake) characters `ยบ`. -/
def extract_service_name_from_identifier (service_identifier : String) : String :=
  match serviceNameMatch service_identifier with
  | none => service_identifier
  | some service_code =>
    if service_code.length < 6 then service_identifier
    else
      let line_number := natOfDigits (service_code.take 3)
      let shift_code := natOfDigits (service_code.drop 3)
      get_actual_line_name line_number ++ "-" ++ toString shift_code ++ "ยบ (" ++
        service_code ++ ")"

end Vgo

/-- C5 counterexample: the name extracted from `"C1 01LPV00_001001"` is
`"C1-1ยบ (001001)"`; line number 1 is in the fixed table and maps to `"C1"`,
so the name does not contain `"L1"` anywhere. -/
theorem vgo_extract_name_counterexample :
    Vgo.extract_service_name_from_identifier "C1 01LPV00_001001" =
      "C1-1ยบ (001001)"
    ∧ containsSub ("L1".data) ("C1-1ยบ (001001)".data) = false := by
  exact ⟨by decide, by decide⟩

/-- C5 (amended): `extract_service_name_from_identifier "C1 01LPV00_001001"`
yields `"C1-1ยบ (001001)"` — containing the mapped line name `"C1"` (line 1
is in the fixed table, so the `"L{number}"` fallback does not apply) and the
shift `"1"` — and every identifier that does not match the
`<free-text>_<6 digits>` pattern is returned unchanged rather than raising. -/
theorem vgo_extract_spec :
    Vgo.extract_service_name_from_identifier "C1 01LPV00_001001" =
      "C1-1ยบ (001001)"
    ∧ containsSub ("C1".data) ("C1-1ยบ (001001)".data) = true
    ∧ containsSub ("1".data) ("C1-1ยบ (001001)".data) = true
    ∧ (∀ s, Vgo.serviceNameMatch s = none →
        Vgo.extract_service_name_from_identifier s = s) := by
  refine ⟨by decide, by decide, by decide, ?_⟩
  intro s hm
  unfold Vgo.extract_service_name_from_identifier
  rw [hm]

/-- Witness for C5 at a concrete non-matching identifier. -/
theorem vgo_extract_spec_witness :
    Vgo.extract_service_name_from_identifier "ABC" = "ABC" :=
  vgo_extract_spec.2.2.2 "ABC" (by decide)

/-! ## src/src/routes.py -/

/-- Route attributes kept by the loader. -/
structure RouteInfo where
  route_short_name : String
  route_color : String
deriving DecidableEq

/-- Python dict assignment `d[k] = v`: replace in place if the key exists,
else append. -/
def dictInsert {α : Type} : List (String × α) → String → α → List (String × α)
  | [], k, v => [(k, v)]
  | (k', v') :: rest, k, v =>
    if k' = k then (k, v) :: rest else (k', v') :: dictInsert rest k v

/-- `routes.txt` as consumed by `csv.DictReader`: the header field names and
each data row as an association list. -/
structure RoutesFile where
  fieldnames : List String
  rows : List (List (String × String))

/-- src/src/routes.py lines 10-43, `load_routes`.  `none` is a missing
`routes.txt`: the `except FileNotFoundError` handler re-raises (modelled as
`.error`; at runtime the message also carries the path).  A row without a
`route_id`/`route_short_name` key re-raises `KeyError`.  Otherwise rows are
folded into a dict keyed by `route_id`, with `route_color` defaulting to
`"000000"` when absent or empty. -/
def load_routes (file : Option RoutesFile) :
    Except String (List (String × RouteInfo)) :=
  match file with
  | none => Except.error "Routes file not found"
  | some f =>
    f.rows.foldlM (fun routes row =>
      match row.lookup "route_id" with
      | none => Except.error "Missing required column in routes file: route_id"
      | some route_id =>
        let route_color := match row.lookup "route_color" with
          | some c => if c ≠ "" then c else "000000"
          | none => "000000"
        match row.lookup "route_short_name" with
        | none =>
          Except.error "Missing required column in routes file: route_short_name"
        | some short_name =>
          Except.ok (dictInsert routes route_id ⟨short_name, route_color⟩)) []

/-- C6 counterexample: with `routes.txt` absent the loader does not return
an empty structure. -/
theorem load_routes_missing_file_counterexample :
    load_routes none ≠ Except.ok [] := by decide

/-- C6 (amended): when `routes.txt` is absent from the feed directory,
`load_routes` re-raises `FileNotFoundError` — the run crashes rather than
degrading to an empty structure. -/
theorem load_routes_missing_file_raises :
    load_routes none = Except.error "Routes file not found" := rfl

/-! ## Rolling-date expansion (src/src/orchestrators.py lines 110-118 and
643-651): `date_list = sorted(set(date_list + rolling_dates))`, guarded by
`if rolling_config.has_mappings()` -/

/-- Python's `str` comparison: lexicographic on code points. -/
def lexLeChars : List Char → List Char → Bool
  | [], _ => true
  | _ :: _, [] => false
  | a :: as, b :: bs =>
    if a.toNat < b.toNat then true
    else if b.toNat < a.toNat then false
    else lexLeChars as bs

theorem lexLeChars_total : ∀ as bs : List Char,
    lexLeChars as bs = true ∨ lexLeChars bs as = true := by
  intro as
  induction as with
  | nil => intro bs; exact Or.inl rfl
  | cons a as ih =>
    intro bs
    cases bs with
    | nil => exact Or.inr rfl
    | cons b bs =>
      rcases Nat.lt_trichotomy a.toNat b.toNat with h | h | h
      · left; simp [lexLeChars, h]
      · rcases ih bs with h2 | h2
        · left
          simp only [lexLeChars]
          rw [if_neg (by omega), if_neg (by omega)]
          exact h2
        · right
          simp only [lexLeChars]
          rw [if_neg (by omega), if_neg (by omega)]
          exact h2
      · right; simp [lexLeChars, h]

theorem lexLeChars_trans : ∀ as bs cs : List Char,
    lexLeChars as bs = true → lexLeChars bs cs = true →
    lexLeChars as cs = true := by
  intro as
  induction as with
  | nil => intro bs cs _ _; rfl
  | cons a as ih =>
    intro bs cs hab hbc
    cases bs with
    | nil => simp [lexLeChars] at hab
    | cons b bs =>
      cases cs with
      | nil => simp [lexLeChars] at hbc
      | cons c cs =>
        simp only [lexLeChars] at hab hbc ⊢
        rcases Nat.lt_trichotomy a.toNat b.toNat with h1 | h1 | h1
        · rcases Nat.lt_trichotomy b.toNat c.toNat with h2 | h2 | h2
          · rw [if_pos (Nat.lt_trans h1 h2)]
          · rw [if_pos (by omega : a.toNat < c.toNat)]
          · rw [if_neg (Nat.lt_asymm h2), if_pos h2] at hbc
            exact absurd hbc (by decide)
        · rcases Nat.lt_trichotomy b.toNat c.toNat with h2 | h2 | h2
          · rw [if_pos (by omega : a.toNat < c.toNat)]
          · rw [if_neg (by omega), if_neg (by omega)] at hab
            rw [if_neg (by omega), if_neg (by omega)] at hbc
            rw [if_neg (by omega : ¬a.toNat < c.toNat),
              if_neg (by omega : ¬c.toNat < a.toNat)]
            exact ih bs cs hab hbc
          · rw [if_neg (Nat.lt_asymm h2), if_pos h2] at hbc
            exact absurd hbc (by decide)
        · rw [if_neg (Nat.lt_asymm h1), if_pos h1] at hab
          exact absurd hab (by decide)

theorem lexLeChars_antisymm : ∀ as bs : List Char,
    lexLeChars as bs = true → lexLeChars bs as = true → as = bs := by
  intro as
  induction as with
  | nil =>
    intro bs h1 h2
    cases bs with
    | nil => rfl
    | cons b bs => simp [lexLeChars] at h2
  | cons a as ih =>
    intro bs hab hba
    cases bs with
    | nil => simp [lexLeChars] at hab
    | cons b bs =>
      simp only [lexLeChars] at hab hba
      rcases Nat.lt_trichotomy a.toNat b.toNat with h | h | h
      · rw [if_neg (Nat.lt_asymm h), if_pos h] at hba
        exact absurd hba (by decide)
      · rw [if_neg (by omega), if_neg (by omega)] at hab
        rw [if_neg (by omega), if_neg (by omega)] at hba
        have hchar : a = b := by
          have hc := congrArg Char.ofNat h
          rwa [Char.ofNat_toNat, Char.ofNat_toNat] at hc
        rw [hchar, ih bs hab hba]
      · rw [if_neg (Nat.lt_asymm h), if_pos h] at hab
        exact absurd hab (by decide)

/-- Python's `a <= b` on strings, as a relation. -/
def pyStrLeRel (a b : String) : Prop := lexLeChars a.data b.data = true

instance : DecidableRel pyStrLeRel :=
  fun a b => inferInstanceAs (Decidable (lexLeChars a.data b.data = true))

instance : IsTotal String pyStrLeRel :=
  ⟨fun a b => lexLeChars_total a.data b.data⟩

instance : IsTrans String pyStrLeRel :=
  ⟨fun a b c => lexLeChars_trans a.data b.data c.data⟩

instance : IsAntisymm String pyStrLeRel :=
  ⟨fun a b h1 h2 => String.ext (lexLeChars_antisymm a.data b.data h1 h2)⟩

/-- src/src/orchestrators.py lines 110-118 (and identically 643-651):
`sorted(set(date_list + rolling_dates))` when at least one rolling mapping is
configured, the requested list unchanged otherwise.  `sorted(set(...))` is
the ascending enumeration of the distinct elements, which a sort of the
de-duplicated concatenation computes. -/
def expand_date_list (mappings : List (String × String))
    (date_list : List String) : List String :=
  if mappings.isEmpty then date_list
  else List.insertionSort pyStrLeRel ((date_list ++ mappings.map Prod.fst).dedup)

/-- C4 counterexample: with no rolling mapping configured the requested list
passes through unchanged, so a duplicated requested date survives — the
result is not the de-duplicated union. -/
theorem expand_date_list_counterexample :
    expand_date_list [] ["2025-01-01", "2025-01-01"] =
      ["2025-01-01", "2025-01-01"]
    ∧ ¬(["2025-01-01", "2025-01-01"] : List String).Nodup := by
  exact ⟨rfl, by decide⟩

/-- C4 (amended): when at least one rolling mapping is configured the
expansion is sorted by Python's string order, duplicate-free (no target date
ever appears twice), and contains exactly the union of the requested dates
and the configured target dates; with no mappings configured the requested
list is returned unchanged (duplicates and disorder survive); in both cases
the expansion is idempotent. -/
theorem expand_date_list_spec (mappings : List (String × String))
    (D : List String) :
    (mappings ≠ [] →
      List.Sorted pyStrLeRel (expand_date_list mappings D)
      ∧ (expand_date_list mappings D).Nodup
      ∧ (∀ x, x ∈ expand_date_list mappings D ↔
          x ∈ D ∨ x ∈ mappings.map Prod.fst))
    ∧ (mappings = [] → expand_date_list mappings D = D)
    ∧ expand_date_list mappings (expand_date_list mappings D) =
        expand_date_list mappings D := by
  have hchar : ∀ (L : List String), mappings ≠ [] →
      List.Sorted pyStrLeRel (expand_date_list mappings L)
      ∧ (expand_date_list mappings L).Nodup
      ∧ (∀ x, x ∈ expand_date_list mappings L ↔
          x ∈ L ∨ x ∈ mappings.map Prod.fst) := by
    intro L hm
    have hne : mappings.isEmpty = false := by
      cases mappings with
      | nil => exact absurd rfl hm
      | cons p ps => rfl
    unfold expand_date_list
    simp only [hne, Bool.false_eq_true, if_false]
    refine ⟨List.sorted_insertionSort _ _, ?_, ?_⟩
    · exact ((List.perm_insertionSort pyStrLeRel _).nodup_iff).mpr
        (List.nodup_dedup _)
    · intro x
      rw [(List.perm_insertionSort pyStrLeRel _).mem_iff, List.mem_dedup,
        List.mem_append]
  refine ⟨fun hm => hchar D hm, ?_, ?_⟩
  · intro hm
    subst hm
    rfl
  · by_cases hm : mappings = []
    · subst hm; rfl
    · obtain ⟨hs1, hn1, hm1⟩ := hchar D hm
      obtain ⟨hs2, hn2, hm2⟩ := hchar (expand_date_list mappings D) hm
      apply List.eq_of_perm_of_sorted ?_ hs2 hs1
      apply List.perm_of_nodup_nodup_toFinset_eq hn2 hn1
      ext x
      simp only [List.mem_toFinset]
      rw [hm2 x, hm1 x]
      tauto

/-- Witness for C4 at a concrete configuration and date list. -/
theorem expand_date_list_spec_witness :
    (expand_date_list [("2025-02-01", "2025-01-15")] ["2025-03-01"]).Nodup
    ∧ expand_date_list [] ["2025-01-01"] = ["2025-01-01"]
    ∧ expand_date_list [("2025-02-01", "2025-01-15")]
        (expand_date_list [("2025-02-01", "2025-01-15")] ["2025-03-01"]) =
      expand_date_list [("2025-02-01", "2025-01-15")] ["2025-03-01"] :=
  ⟨((expand_date_list_spec [("2025-02-01", "2025-01-15")] ["2025-03-01"]).1
      (by decide)).2.1,
    (expand_date_list_spec [] ["2025-01-01"]).2.1 rfl,
    (expand_date_list_spec [("2025-02-01", "2025-01-15")] ["2025-03-01"]).2.2⟩

/-! ## src/src/stops.py, src/src/trips.py, src/src/stop_times.py,
src/src/common.py — the in-memory tables consumed by `process_stop_date` -/

/-- A stop from `get_all_stops` (src/src/stops.py lines 9-15).
`stop_code`'s `None` and `""` behave identically everywhere (truthiness
tests only), so both are modelled as `""`.  A `None` `stop_name` would make
`process_stop_date` raise `TypeError` inside `get_street_name` (line 572 of
orchestrators.py), so the embedding models the feeds the function completes
on, where `stop_name` is a string. -/
structure Stop where
  stop_id : String
  stop_code : String
  stop_name : String
  stop_lat : Option ℚ
  stop_lon : Option ℚ
deriving DecidableEq

/-- A trip row from `get_trips_for_services` (src/src/trips.py lines 9-24),
already parsed (a row whose `direction_id` cell `int()` rejects makes the
loader raise, which is CSV mechanics outside this embedding). -/
structure TripLine where
  route_id : String
  service_id : String
  trip_id : String
  headsign : String
  direction_id : Int
  shape_id : Option String
deriving DecidableEq

/-- A stop-time row from `get_stops_for_trips`
(src/src/stop_times.py lines 9-23). -/
structure StopTime where
  trip_id : String
  arrival_time : String
  departure_time : String
  stop_id : String
  stop_sequence : Int
  shape_dist_traveled : Option ℚ
deriving DecidableEq

/-- src/src/common.py lines 7-18, `normalize_stop_code`: with
`numeric_only`, keep the digits and re-render through `int()` (dropping
leading zeros); an empty input or no digits yields `""`. -/
def normalize_stop_code (stop_code : String) (numeric_only : Bool) : String :=
  if stop_code = "" then ""
  else if numeric_only then
    (if String.mk (stop_code.data.filter (·.isDigit)) ≠ "" then
      toString (natOfDigits (String.mk (stop_code.data.filter (·.isDigit))))
    else "")
  else stop_code

/-- src/src/common.py lines 21-29, `create_stop_id_to_code_mapping`: keep
stops whose code is non-empty before and after normalization. -/
def create_stop_id_to_code_mapping (stops : List (String × Stop))
    (numeric_stop_code : Bool) : List (String × String) :=
  stops.foldl (fun acc p =>
    if p.2.stop_code ≠ "" then
      (if normalize_stop_code p.2.stop_code numeric_stop_code ≠ "" then
        acc ++ [(p.1, normalize_stop_code p.2.stop_code numeric_stop_code)]
      else acc)
    else acc) []

/-- src/src/trips.py lines 27-97, `get_trips_for_services`: group the rows
whose `service_id` is among the requested ids into a dict keyed by
`service_id` — keys in first-encounter order, each bucket holding exactly
the rows with that `service_id`, in file order. -/
def get_trips_for_services (table : List TripLine)
    (service_ids : List String) : List (String × List TripLine) :=
  (((table.filter (fun t => decide (t.service_id ∈ service_ids))).map
      (fun t => t.service_id)).dedup).map
    (fun s => (s, table.filter (fun t => t.service_id == s)))

/-- Ordering of stop-time rows by `stop_sequence` (the sort key of
src/src/stop_times.py line 85). -/
def stopSeqLe (a b : StopTime) : Prop := a.stop_sequence ≤ b.stop_sequence

instance : DecidableRel stopSeqLe :=
  fun a b => inferInstanceAs (Decidable (a.stop_sequence ≤ b.stop_sequence))

/-- src/src/stop_times.py lines 26-88, `get_stops_for_trips`: group rows by
`trip_id` for the requested trips, each bucket stably sorted by
`stop_sequence`. -/
def get_stops_for_trips (table : List StopTime) (trip_ids : List String) :
    List (String × List StopTime) :=
  (((table.filter (fun st => decide (st.trip_id ∈ trip_ids))).map
      (fun st => st.trip_id)).dedup).map
    (fun tid => (tid,
      List.insertionSort stopSeqLe (table.filter (fun st => st.trip_id == tid))))

/-! ## src/src/orchestrators.py lines 460-616, `process_stop_date` -/

/-- The in-memory feed a stop-report worker reads: the calendar files, the
parsed `trips.txt` and `stop_times.txt` tables, and the results of
`get_all_stops` and (a successful) `load_routes`, both dicts modelled as
association lists with unique keys. -/
structure StopFeed where
  services : ServiceFeed
  trips_table : List TripLine
  stop_times_table : List StopTime
  stops : List (String × Stop)
  routes : List (String × RouteInfo)

/-- Line 471: `date_for_query = source_date if source_date else target_date`
(`source_date` is `None` or a non-empty date string). -/
def dateForQuery (target_date : String) (source_date : Option String) : String :=
  source_date.getD target_date

/-- Line 483: the same-day resolver's list (total here; `process_stop_date`
itself returns `none` when `get_active_services` raises). -/
def activeServicesOf (sf : ServiceFeed) (q : String) : List String :=
  (get_active_services sf q).getD []

/-- `date - timedelta(days=1)` on a parsed date (valid, not `date.min`). -/
def prevDateTriple : Nat × Nat × Nat → Nat × Nat × Nat
  | (y, m, d) =>
    if 1 < d then (y, m, d - 1)
    else if 1 < m then (y, m - 1, daysInMonth y (m - 1))
    else (y - 1, 12, 31)

/-- Zero-pad a number to `width` digits (as `strftime` does). -/
def pyFormat0 (width n : Nat) : String :=
  if (toString n).length < width then
    String.mk (List.replicate (width - (toString n).length) '0') ++ toString n
  else toString n

/-- `strftime('%Y-%m-%d')`. -/
def formatDate : Nat × Nat × Nat → String
  | (y, m, d) => pyFormat0 4 y ++ "-" ++ pyFormat0 2 m ++ "-" ++ pyFormat0 2 d

/-- Lines 486-493: the previous calendar day's active services, `[]` when
the date cannot be parsed (the `except (ValueError, TypeError)` branch). -/
def prevActiveOf (sf : ServiceFeed) (q : String) : List String :=
  match parseDate q with
  | some t => (get_active_services sf (formatDate (prevDateTriple t))).getD []
  | none => []

/-- Line 496: `list(set(active_services + prev_active_services))` — CPython
iterates the set in an unspecified order; the embedding uses `dedup`, which
has the same members. -/
def allServicesFor (feed : StopFeed) (q : String) : List String :=
  (activeServicesOf feed.services q ++ prevActiveOf feed.services q).dedup

/-- Line 504. -/
def tripsFor (feed : StopFeed) (q : String) : List (String × List TripLine) :=
  get_trips_for_services feed.trips_table (allServicesFor feed q)

/-- Line 505. -/
def allTripIdsFor (feed : StopFeed) (q : String) : List String :=
  (tripsFor feed q).flatMap (fun p => p.2.map (fun t => t.trip_id))

/-- Line 506. -/
def stopsForTripsFor (feed : StopFeed) (q : String) :
    List (String × List StopTime) :=
  get_stops_for_trips feed.stop_times_table (allTripIdsFor feed q)

/-- Line 533: `stops_for_all_trips.get(trip.trip_id, [])`. -/
def tripStopsFor (feed : StopFeed) (q : String) (t : TripLine) : List StopTime :=
  ((stopsForTripsFor feed q).lookup t.trip_id).getD []

/-- Lines 509 and 554: the `stop_id → stop_code` lookup. -/
def stopCodeFor (feed : StopFeed) (numeric : Bool) (stop_id : String) :
    Option String :=
  (create_stop_id_to_code_mapping feed.stops numeric).lookup stop_id

/-- One arrival record (the `arrival_data` dict of lines 584-608);
`rolling_date` is the optional `_rolling_date` entry. -/
structure Arrival where
  line_name : String
  line_colour : String
  trip_id : String
  service_id : String
  headsign : String
  direction_id : Int
  route_id : String
  departure_time : String
  arrival_time : String
  stop_sequence : Int
  shape_dist_traveled : Option ℚ
  next_streets : List String
  rolling_date : Option (String × String)
deriving DecidableEq

/-- Line 587: `f"#{route_color}" if route_color and not
route_color.startswith('#') else route_color or "#0074d9"`. -/
def lineColour (route_color : String) : String :=
  if route_color ≠ "" ∧ ¬route_color.startsWith "#" then "#" ++ route_color
  else if route_color ≠ "" then route_color
  else "#0074d9"

/-- Lines 575-582: the deduplicated list of street names of the remaining
stops, skipping the current stop's street.  `street` is the collaborator
`get_street_name` of src/src/street_name.py, a pure `str → str` function
whose internals no claim depends on, passed as a parameter. -/
def nextStreets (street : String → String) (stops : List (String × Stop))
    (stop_street_name : String) (remaining : List StopTime) : List String :=
  remaining.foldl (fun acc rst =>
    match stops.lookup rst.stop_id with
    | some rinfo =>
      if rinfo.stop_name ≠ "" then
        (if street rinfo.stop_name ∉ acc ∧ street rinfo.stop_name ≠ stop_street_name
          then acc ++ [street rinfo.stop_name] else acc)
      else acc
    | none => acc) []

/-- Lines 528-608 (record construction): the arrival record for stop-time
`st` at index `i` of its trip's ordered stop list. -/
def buildArrival (street : String → String) (stops : List (String × Stop))
    (routes : List (String × RouteInfo)) (rolling : Option (String × String))
    (service_id : String) (t : TripLine) (trip_stops : List StopTime)
    (i : Nat) (st : StopTime) (info : Stop) : Arrival :=
  { line_name := ((routes.lookup t.route_id).map
      (fun ri => ri.route_short_name)).getD ""
    line_colour := lineColour (((routes.lookup t.route_id).map
      (fun ri => ri.route_color)).getD "")
    trip_id := t.trip_id
    service_id := service_id
    headsign := t.headsign
    direction_id := t.direction_id
    route_id := t.route_id
    departure_time := (normalize_gtfs_time st.departure_time).1
    arrival_time := (normalize_gtfs_time st.arrival_time).1
    stop_sequence := st.stop_sequence
    shape_dist_traveled := st.shape_dist_traveled
    next_streets := nextStreets street stops (street info.stop_name)
      (trip_stops.drop (i + 1))
    rolling_date := rolling }

/-- Lines 535-610, the body of the innermost loop for one enumerated
stop-time `p = (i, stop_time)`: the `belongs_to_current_date` decision
(lines 541-548), the `stop_code` and `stop_info` guards (lines 554-565),
and the append into the per-code bucket.  The emitted pair is
`(stop_code, arrival_data)`. -/
def emitOne (street : String → String) (stops : List (String × Stop))
    (routes : List (String × RouteInfo)) (codes : List (String × String))
    (active prev : List String) (rolling : Option (String × String))
    (service_id : String) (t : TripLine) (trip_stops : List StopTime)
    (p : Nat × StopTime) : List (String × Arrival) :=
  if (service_id ∈ active ∧ (normalize_gtfs_time p.2.arrival_time).2 = false)
      ∨ (service_id ∈ prev ∧ (normalize_gtfs_time p.2.arrival_time).2 = true) then
    match codes.lookup p.2.stop_id with
    | none => []
    | some stop_code =>
      if stop_code = "" then []
      else
        match stops.lookup p.2.stop_id with
        | none => []
        | some stop_info =>
          [(stop_code, buildArrival street stops routes rolling service_id t
            trip_stops p.1 p.2 stop_info)]
  else []

/-- Lines 523-610: the stream of `(stop_code, arrival)` pairs produced by
the three nested loops, in iteration order.  The Python code appends each
pair into `stop_arrivals[stop_code]`; a dict of lists built that way holds,
per code, exactly the pairs of this stream with that code, in order. -/
def stopEmissions (street : String → String) (feed : StopFeed) (numeric : Bool)
    (q : String) (rolling : Option (String × String)) :
    List (String × Arrival) :=
  (tripsFor feed q).flatMap (fun sp =>
    sp.2.flatMap (fun t =>
      (tripStopsFor feed q t).enum.flatMap
        (emitOne street feed.stops feed.routes
          (create_stop_id_to_code_mapping feed.stops numeric)
          (activeServicesOf feed.services q) (prevActiveOf feed.services q)
          rolling sp.1 t (tripStopsFor feed q t))))

/-- Ordering of arrivals by the sort key of lines 613-614. -/
def arrivalTimeLe (a b : Arrival) : Prop :=
  time_to_seconds a.arrival_time ≤ time_to_seconds b.arrival_time

instance : DecidableRel arrivalTimeLe :=
  fun a b => inferInstanceAs
    (Decidable (time_to_seconds a.arrival_time ≤ time_to_seconds b.arrival_time))

/-- The per-code board: the emitted arrivals for `code`, stably sorted by
arrival time (lines 612-614). -/
def boardFor (street : String → String) (feed : StopFeed) (numeric : Bool)
    (q : String) (rolling : Option (String × String)) (code : String) :
    List Arrival :=
  List.insertionSort arrivalTimeLe
    (((stopEmissions street feed numeric q rolling).filter
      (fun p => p.1 == code)).map (fun p => p.2))

/-- src/src/orchestrators.py lines 460-616, `process_stop_date`, for a feed
whose static tables are already loaded.  `none` models an uncaught
exception: the `ValueError` from `strptime` on a malformed
`date_for_query` (line 483, via `get_active_services`), or the
`OverflowError` of `date.min - timedelta(days=1)` (line 488, not caught by
the `except (ValueError, TypeError)` handler).  With no active services the
result is `(target_date, {})` (lines 498-500); otherwise each stop code's
bucket is the sorted list of its emitted arrivals. -/
def process_stop_date (street : String → String) (feed : StopFeed)
    (numeric_stop_code : Bool) (target_date : String)
    (source_date : Option String) : Option (String × (String → List Arrival)) :=
  match parseDate (dateForQuery target_date source_date) with
  | none => none
  | some t =>
    if t = (1, 1, 1) then none
    else if allServicesFor feed (dateForQuery target_date source_date) = [] then
      some (target_date, fun _ => [])
    else
      some (target_date,
        boardFor street feed numeric_stop_code
          (dateForQuery target_date source_date)
          (source_date.map (fun sd => (sd, target_date))))

theorem mem_get_trips_for_services {table : List TripLine}
    {service_ids : List String} {sp : String × List TripLine}
    (h : sp ∈ get_trips_for_services table service_ids) :
    sp.1 ∈ service_ids ∧ sp.2 = table.filter (fun t => t.service_id == sp.1) := by
  unfold get_trips_for_services at h
  rw [List.mem_map] at h
  obtain ⟨s, hs, rfl⟩ := h
  rw [List.mem_dedup, List.mem_map] at hs
  obtain ⟨t, ht, hts⟩ := hs
  rw [List.mem_filter] at ht
  constructor
  · rw [← hts]
    exact of_decide_eq_true ht.2
  · rfl

theorem mem_boardFor {street : String → String} {feed : StopFeed}
    {numeric : Bool} {q : String} {rolling : Option (String × String)}
    {code : String} {r : Arrival} :
    r ∈ boardFor street feed numeric q rolling code ↔
      ∃ pr ∈ stopEmissions street feed numeric q rolling,
        pr.1 = code ∧ pr.2 = r := by
  unfold boardFor
  rw [(List.perm_insertionSort arrivalTimeLe _).mem_iff, List.mem_map]
  constructor
  · rintro ⟨pr, hpr, hr⟩
    rw [List.mem_filter] at hpr
    exact ⟨pr, hpr.1, by simpa using hpr.2, hr⟩
  · rintro ⟨pr, hpr, hc, hr⟩
    exact ⟨pr, List.mem_filter.mpr ⟨hpr, by simpa using hc⟩, hr⟩

theorem mem_stopEmissions {street : String → String} {feed : StopFeed}
    {numeric : Bool} {q : String} {rolling : Option (String × String)}
    {pr : String × Arrival} :
    pr ∈ stopEmissions street feed numeric q rolling ↔
      ∃ sp ∈ tripsFor feed q, ∃ t ∈ sp.2,
        ∃ p ∈ (tripStopsFor feed q t).enum,
          pr ∈ emitOne street feed.stops feed.routes
            (create_stop_id_to_code_mapping feed.stops numeric)
            (activeServicesOf feed.services q) (prevActiveOf feed.services q)
            rolling sp.1 t (tripStopsFor feed q t) p := by
  unfold stopEmissions
  simp only [List.mem_flatMap]

theorem mem_emitOne {street : String → String} {stops : List (String × Stop)}
    {routes : List (String × RouteInfo)} {codes : List (String × String)}
    {active prev : List String} {rolling : Option (String × String)}
    {service_id : String} {t : TripLine} {trip_stops : List StopTime}
    {p : Nat × StopTime} {pr : String × Arrival} :
    pr ∈ emitOne street stops routes codes active prev rolling service_id t
        trip_stops p ↔
      (((service_id ∈ active ∧ (normalize_gtfs_time p.2.arrival_time).2 = false)
          ∨ (service_id ∈ prev ∧ (normalize_gtfs_time p.2.arrival_time).2 = true))
        ∧ ∃ stop_code, codes.lookup p.2.stop_id = some stop_code ∧ stop_code ≠ ""
          ∧ ∃ info, stops.lookup p.2.stop_id = some info
            ∧ pr = (stop_code, buildArrival street stops routes rolling
                service_id t trip_stops p.1 p.2 info)) := by
  unfold emitOne
  by_cases hb : (service_id ∈ active ∧ (normalize_gtfs_time p.2.arrival_time).2 = false)
      ∨ (service_id ∈ prev ∧ (normalize_gtfs_time p.2.arrival_time).2 = true)
  · rw [if_pos hb]
    cases hl : codes.lookup p.2.stop_id with
    | none => simp
    | some c =>
      by_cases hc : c = ""
      · subst hc
        simp
      · cases hi : stops.lookup p.2.stop_id with
        | none => simp [hc]
        | some info => simp [hb, hc]
  · rw [if_neg hb]
    simp [hb]

/-- C2: in per-date stop-arrival generation, an arrival record is on the
requested date's board for a stop code iff it is generated from a trip of a
service in the loaded map, its stop resolves to that code with stop info
present, and either (a) the owning service is active on the queried date by
the same-day resolver and the arrival time is not a next-day time, or
(b) the owning service is active on the previous calendar day and the
arrival time is a next-day time; the stored record carries the
midnight-normalized times.  Instantiating at day D and D-1 gives the
cross-midnight behavior: a service active only on D-1 with a `>= 24h`
arrival time appears (normalized) on D's board via branch (b) and not on
D-1's board, whose same-day branch excludes next-day times. -/
theorem process_stop_date_membership (street : String → String)
    (feed : StopFeed) (numeric : Bool) (target_date : String)
    (source_date : Option String) (td : String)
    (board : String → List Arrival)
    (h : process_stop_date street feed numeric target_date source_date =
      some (td, board)) (code : String) (r : Arrival) :
    r ∈ board code ↔
      ∃ sp ∈ tripsFor feed (dateForQuery target_date source_date),
      ∃ t ∈ sp.2,
      ∃ p ∈ (tripStopsFor feed (dateForQuery target_date source_date) t).enum,
        stopCodeFor feed numeric p.2.stop_id = some code ∧ code ≠ ""
        ∧ ∃ info, feed.stops.lookup p.2.stop_id = some info
          ∧ r = buildArrival street feed.stops feed.routes
              (source_date.map (fun sd => (sd, target_date))) sp.1 t
              (tripStopsFor feed (dateForQuery target_date source_date) t)
              p.1 p.2 info
          ∧ ((sp.1 ∈ activeServicesOf feed.services
                (dateForQuery target_date source_date)
              ∧ (normalize_gtfs_time p.2.arrival_time).2 = false)
            ∨ (sp.1 ∈ prevActiveOf feed.services
                (dateForQuery target_date source_date)
              ∧ (normalize_gtfs_time p.2.arrival_time).2 = true)) := by
  unfold process_stop_date at h
  cases hpd : parseDate (dateForQuery target_date source_date) with
  | none =>
    rw [hpd] at h
    exact Option.noConfusion h
  | some t =>
    rw [hpd] at h
    replace h : (if t = (1, 1, 1) then none
        else if allServicesFor feed (dateForQuery target_date source_date) = [] then
          some (target_date, fun _ => ([] : List Arrival))
        else some (target_date, boardFor street feed numeric
          (dateForQuery target_date source_date)
          (source_date.map (fun sd => (sd, target_date))))) = some (td, board) := h
    by_cases ht : t = (1, 1, 1)
    · rw [if_pos ht] at h
      exact Option.noConfusion h
    · rw [if_neg ht] at h
      by_cases hall :
          allServicesFor feed (dateForQuery target_date source_date) = []
      · rw [if_pos hall] at h
        have hb : (fun _ => ([] : List Arrival)) = board :=
          congrArg Prod.snd (Option.some.inj h)
        constructor
        · intro hr
          rw [← hb] at hr
          exact absurd hr (by simp)
        · rintro ⟨sp, hsp, -⟩
          have hmem := (mem_get_trips_for_services hsp).1
          rw [hall] at hmem
          exact absurd hmem (by simp)
      · rw [if_neg hall] at h
        have hb : boardFor street feed numeric
            (dateForQuery target_date source_date)
            (source_date.map (fun sd => (sd, target_date))) = board :=
          congrArg Prod.snd (Option.some.inj h)
        rw [← hb, mem_boardFor]
        constructor
        · rintro ⟨pr, hpr, hc, hr⟩
          rw [mem_stopEmissions] at hpr
          obtain ⟨sp, hsp, t2, ht2, p, hp, hemit⟩ := hpr
          rw [mem_emitOne] at hemit
          obtain ⟨hcond, sc, hsc, hscne, info, hinfo, hpr_eq⟩ := hemit
          have hsc_eq : sc = code := by rw [hpr_eq] at hc; exact hc
          refine ⟨sp, hsp, t2, ht2, p, hp, ?_, ?_, info, hinfo, ?_, hcond⟩
          · show (create_stop_id_to_code_mapping feed.stops numeric).lookup
              p.2.stop_id = some code
            rw [hsc, hsc_eq]
          · rw [← hsc_eq]
            exact hscne
          · rw [← hr, hpr_eq]
        · rintro ⟨sp, hsp, t2, ht2, p, hp, hcode, hcne, info, hinfo, hr_eq, hcond⟩
          refine ⟨(code, buildArrival street feed.stops feed.routes
            (source_date.map (fun sd => (sd, target_date))) sp.1 t2
            (tripStopsFor feed (dateForQuery target_date source_date) t2)
            p.1 p.2 info), ?_, rfl, hr_eq.symm⟩
          rw [mem_stopEmissions]
          refine ⟨sp, hsp, t2, ht2, p, hp, ?_⟩
          rw [mem_emitOne]
          exact ⟨hcond, code, hcode, hcne, info, hinfo, rfl⟩

/-- Witness feed for C2: service `"SVC"` is active only on 2025-06-22 (via a
type-1 exception), and its single trip `"T1"` arrives at stop `"STOP1"` at
`"24:15:00"` — a next-day time, i.e. 00:15 on 2025-06-23. -/
def feedC2 : StopFeed :=
  { services :=
      { calendar := none
        calendar_dates := some [⟨"SVC", "20250622", "1"⟩] }
    trips_table := [⟨"R1", "SVC", "T1", "H", 0, none⟩]
    stop_times_table := [⟨"T1", "24:15:00", "24:15:00", "STOP1", 1, none⟩]
    stops := [("STOP1", ⟨"STOP1", "C100", "Main St", none, none⟩)]
    routes := [("R1", ⟨"L1", "ff0000"⟩)] }

/-- Witness for C2: on day 2025-06-23 the previous-day service's next-day
arrival is on the board (via the theorem's previous-day branch), while day
2025-06-22's own board is empty — the same-day branch excludes next-day
times. -/
theorem process_stop_date_membership_witness :
    buildArrival (fun s => s) feedC2.stops feedC2.routes none "SVC"
        (⟨"R1", "SVC", "T1", "H", 0, none⟩ : TripLine)
        (tripStopsFor feedC2 "2025-06-23" ⟨"R1", "SVC", "T1", "H", 0, none⟩)
        0 (⟨"T1", "24:15:00", "24:15:00", "STOP1", 1, none⟩ : StopTime)
        (⟨"STOP1", "C100", "Main St", none, none⟩ : Stop) ∈
      boardFor (fun s => s) feedC2 false "2025-06-23" none "C100"
    ∧ boardFor (fun s => s) feedC2 false "2025-06-22" none "C100" = [] := by
  constructor
  · exact (process_stop_date_membership (fun s => s) feedC2 false "2025-06-23"
      none "2025-06-23" (boardFor (fun s => s) feedC2 false "2025-06-23" none)
      rfl "C100" _).mpr
      ⟨("SVC", [⟨"R1", "SVC", "T1", "H", 0, none⟩]), by decide,
        ⟨"R1", "SVC", "T1", "H", 0, none⟩, by decide,
        (0, ⟨"T1", "24:15:00", "24:15:00", "STOP1", 1, none⟩), by decide,
        by decide, by decide,
        ⟨"STOP1", "C100", "Main St", none, none⟩, by decide, rfl,
        Or.inr ⟨by decide, by decide⟩⟩
  · decide
